import Mathlib

/-!
Shallow embedding of the dependency risk scorer of
`Nika-HISK/project-load-analyzer`: the `analyzeDependencies` tool
(`heavyPackagesList` catalog and the tool's `execute` function).

Modelling conventions:
* JSON values are the inductive `Json`.  Objects are association lists in
  insertion order, matching the enumeration order `Object.keys` uses for the
  non-integer-like string keys that occur here.  `JSON.parse` itself is an
  external library call; its outcome is modelled as `Option Json`, where
  `none` stands for any input text on which deserialization throws.
* JavaScript object spread `\x7b...a, ...b\x7d` is `spreadMerge`: keys of `a`
  in order, keys of `b` replacing in place when already present and appended
  otherwise (so for a duplicate key the value spread later wins).
* Property access `pkg.dependencies` on a non-object yields `undefined`
  (`none`); on `null` it throws, which the tool's `catch` turns into the
  default report.
* Machine numbers: every catalog weight is a positive integer and the code
  only ever adds them, so `Nat` is exact.
-/

inductive Json where
  | null
  | bool (b : Bool)
  | num (n : Int)
  | str (s : String)
  | arr (elems : List Json)
  | obj (fields : List (String × Json))
deriving Repr

/-- An entry of the static catalog: a positive weight and a category label. -/
structure CatalogEntry where
  weight : Nat
  category : String
deriving Repr, DecidableEq

/-- The static catalog `heavyPackagesList` from the source, in source order. -/
def heavyPackagesList : List (String × CatalogEntry) :=
  [ ("tensorflow", ⟨10, "AI/ML"⟩),
    ("@tensorflow/tfjs", ⟨8, "AI/ML"⟩),
    ("torch", ⟨10, "AI/ML"⟩),
    ("opencv", ⟨9, "Computer Vision"⟩),
    ("mediapipe", ⟨8, "Computer Vision"⟩),
    ("puppeteer", ⟨8, "Browser Automation"⟩),
    ("playwright", ⟨8, "Browser Automation"⟩),
    ("selenium-webdriver", ⟨7, "Browser Automation"⟩),
    ("sharp", ⟨7, "Image Processing"⟩),
    ("jimp", ⟨5, "Image Processing"⟩),
    ("canvas", ⟨6, "Image Processing"⟩),
    ("ffmpeg", ⟨9, "Video Processing"⟩),
    ("node-ffmpeg", ⟨9, "Video Processing"⟩),
    ("mysql2", ⟨4, "Database"⟩),
    ("pg", ⟨4, "Database"⟩),
    ("mongodb", ⟨5, "Database"⟩),
    ("redis", ⟨4, "Database"⟩),
    ("elasticsearch", ⟨6, "Database"⟩),
    ("webpack", ⟨5, "Build Tools"⟩),
    ("vite", ⟨4, "Build Tools"⟩),
    ("rollup", ⟨4, "Build Tools"⟩),
    ("parcel", ⟨4, "Build Tools"⟩),
    ("next", ⟨5, "Framework"⟩),
    ("nuxt", ⟨5, "Framework"⟩),
    ("electron", ⟨7, "Desktop"⟩),
    ("bcrypt", ⟨4, "Crypto"⟩),
    ("crypto", ⟨3, "Crypto"⟩),
    ("argon2", ⟨4, "Crypto"⟩),
    ("pdf-parse", ⟨4, "File Processing"⟩),
    ("xlsx", ⟨4, "File Processing"⟩),
    ("archiver", ⟨3, "File Processing"⟩),
    ("jest", ⟨3, "Testing"⟩),
    ("cypress", ⟨6, "Testing"⟩),
    ("@storybook/react", ⟨5, "Testing"⟩) ]

/-- Exact-name lookup `heavyPackagesList[pkgName]` (truthiness test + read). -/
def catalogLookup (name : String) : Option CatalogEntry :=
  (heavyPackagesList.find? (fun p => p.1 = name)).map Prod.snd

/-- JavaScript property read `pkg[k]` for the identifier keys used here:
`none` models `undefined` (also for primitives, whose boxed objects have no
such property).  `null` is handled separately by the caller because reading a
property of `null` throws. -/
def jsGetField (pkg : Json) (k : String) : Option Json :=
  match pkg with
  | Json.obj fields => (fields.find? (fun p => p.1 = k)).map Prod.snd
  | _ => none

/-- The own-enumerable entries a value contributes under object spread:
objects give their fields, strings and arrays give index-keyed entries,
`undefined` (`none`) and other primitives give nothing. -/
def spreadSource (v : Option Json) : List (String × Json) :=
  match v with
  | some (Json.obj fields) => fields
  | some (Json.str s) =>
      s.data.enum.map (fun p => (toString p.1, Json.str (String.mk [p.2])))
  | some (Json.arr xs) => xs.enum.map (fun p => (toString p.1, p.2))
  | _ => []

/-- Assigning `m[k] = v` on a JavaScript object: an existing key keeps its
position and gets the new value, a new key is appended. -/
def objInsert (m : List (String × Json)) (kv : String × Json) :
    List (String × Json) :=
  if m.any (fun p => p.1 = kv.1) then
    m.map (fun p => if p.1 = kv.1 then kv else p)
  else m ++ [kv]

/-- Object spread merge `\x7b...a, ...b\x7d`. -/
def spreadMerge (a b : List (String × Json)) : List (String × Json) :=
  b.foldl objInsert a

/-- First-match association lookup, i.e. reading `m[k]` on a JS object
(whose keys are unique). -/
def objLookup (m : List (String × Json)) (k : String) : Option Json :=
  (m.find? (fun p => p.1 = k)).map Prod.snd

/-- The field list the code spreads for key `k` of the parsed manifest. -/
def depsField (pkg : Json) (k : String) : List (String × Json) :=
  spreadSource (jsGetField pkg k)

/-- `allDeps = \x7b...pkg.dependencies, ...pkg.devDependencies\x7d`. -/
def allDepsOf (pkg : Json) : List (String × Json) :=
  spreadMerge (depsField pkg "dependencies") (depsField pkg "devDependencies")

/-- The mutable accumulators of the scan loop. -/
structure ScanState where
  totalWeight : Nat
  categories : List (String × Nat)
  heavyPackages : List String
deriving Repr, DecidableEq

/-- `categories[category] = (categories[category] || 0) + weight`. -/
def bumpCategory (cats : List (String × Nat)) (c : String) (w : Nat) :
    List (String × Nat) :=
  if cats.any (fun p => p.1 = c) then
    cats.map (fun p => if p.1 = c then (p.1, p.2 + w) else p)
  else cats ++ [(c, w)]

/-- One iteration of the `Object.keys(allDeps).forEach` body. -/
def scanStep (st : ScanState) (pkgName : String) : ScanState :=
  match catalogLookup pkgName with
  | some e =>
      { totalWeight := st.totalWeight + e.weight
        categories := bumpCategory st.categories e.category e.weight
        heavyPackages := st.heavyPackages ++ [pkgName] }
  | none => st

/-- The whole scan loop over the merged manifest keys. -/
def scan (keys : List String) : ScanState :=
  keys.foldl scanStep ⟨0, [], []⟩

inductive RiskLevel where
  | LOW
  | MEDIUM
  | HIGH
  | CRITICAL
deriving Repr, DecidableEq

/-- The risk classification chain of the source. -/
def classifyRisk (totalWeight : Nat) : RiskLevel :=
  if totalWeight ≤ 5 then RiskLevel.LOW
  else if totalWeight ≤ 15 then RiskLevel.MEDIUM
  else if totalWeight ≤ 30 then RiskLevel.HIGH
  else RiskLevel.CRITICAL

/-- The five fixed name-sets of the `analysis` flags, verbatim from the
source's array literals. -/
def browserAutomationSet : List String :=
  ["puppeteer", "playwright", "selenium-webdriver"]

def hasAISet : List String :=
  ["tensorflow", "@tensorflow/tfjs", "torch", "opencv", "mediapipe"]

def imageProcessingSet : List String := ["sharp", "jimp", "canvas"]

def videoProcessingSet : List String := ["ffmpeg", "node-ffmpeg"]

def databaseSet : List String :=
  ["mysql2", "pg", "mongodb", "redis", "elasticsearch"]

/-- `heavyPackages.some(pkg => nameSet.includes(pkg))`. -/
def hasFlag (heavy : List String) (nameSet : List String) : Bool :=
  heavy.any (fun p => nameSet.contains p)

structure Analysis where
  hasBrowserAutomation : Bool
  hasAI : Bool
  hasImageProcessing : Bool
  hasVideoProcessing : Bool
  hasDatabase : Bool
  totalDependencies : Nat
deriving Repr, DecidableEq

structure Report where
  heavyPackages : List String
  totalWeight : Nat
  categories : List (String × Nat)
  riskLevel : RiskLevel
  analysis : Analysis
deriving Repr, DecidableEq

/-- The try-branch of `execute` on a successfully parsed, non-`null` value. -/
def execSuccess (pkg : Json) : Report :=
  let allDeps := allDepsOf pkg
  let totalDependencies := (allDeps.map Prod.fst).length
  let st := scan (allDeps.map Prod.fst)
  { heavyPackages := st.heavyPackages
    totalWeight := st.totalWeight
    categories := st.categories
    riskLevel := classifyRisk st.totalWeight
    analysis :=
      { hasBrowserAutomation := hasFlag st.heavyPackages browserAutomationSet
        hasAI := hasFlag st.heavyPackages hasAISet
        hasImageProcessing := hasFlag st.heavyPackages imageProcessingSet
        hasVideoProcessing := hasFlag st.heavyPackages videoProcessingSet
        hasDatabase := hasFlag st.heavyPackages databaseSet
        totalDependencies := totalDependencies } }

/-- The catch-branch literal of the source. -/
def catchReport : Report :=
  { heavyPackages := []
    totalWeight := 0
    categories := []
    riskLevel := RiskLevel.LOW
    analysis :=
      { hasBrowserAutomation := false
        hasAI := false
        hasImageProcessing := false
        hasVideoProcessing := false
        hasDatabase := false
        totalDependencies := 0 } }

/-- `analyzeDependencies.execute` after the `JSON.parse` boundary: `none` is
a text on which deserialization threw; `JSON.parse` returning `null` makes
`pkg.dependencies` throw a TypeError, so both land in the catch branch. -/
def analyzeDependenciesExecute (parsed : Option Json) : Report :=
  match parsed with
  | none => catchReport
  | some Json.null => catchReport
  | some pkg => execSuccess pkg

/-- Modelled from the spec: the zero/default report the spec promises on
deserialization failure (`heavyPackages=[]`, `totalWeight=0`,
`categories=\x7b\x7d`, `riskLevel=LOW`, all five flags false,
`totalDependencies=0`).  Written from the spec's words, to be compared with
the code's catch branch. -/
def zeroReportSpec : Report :=
  { heavyPackages := []
    totalWeight := 0
    categories := []
    riskLevel := RiskLevel.LOW
    analysis :=
      { hasBrowserAutomation := false
        hasAI := false
        hasImageProcessing := false
        hasVideoProcessing := false
        hasDatabase := false
        totalDependencies := 0 } }

/-- Builder for a concrete manifest with the two dependency objects. -/
def mkManifest (d dd : List (String × Json)) : Json :=
  Json.obj [("dependencies", Json.obj d), ("devDependencies", Json.obj dd)]

/-- A manifest is well formed when the two spread field lists have no
duplicate keys — automatic for anything `JSON.parse` produces. -/
def wellFormedManifest (pkg : Json) : Prop :=
  ((depsField pkg "dependencies").map Prod.fst).Nodup ∧
    ((depsField pkg "devDependencies").map Prod.fst).Nodup

instance (pkg : Json) : Decidable (wellFormedManifest pkg) := by
  unfold wellFormedManifest
  infer_instance

/-- The catalog names whose category label is exactly "AI/ML". -/
def aimlCategoryNames : List String :=
  (heavyPackagesList.filter (fun p => p.2.category = "AI/ML")).map Prod.fst

/-- The catalog names whose category label is exactly "Computer Vision". -/
def cvCategoryNames : List String :=
  (heavyPackagesList.filter (fun p => p.2.category = "Computer Vision")).map Prod.fst

/-! ### Helper lemmas about the JS-object association lists -/

/-- The weight a single merged-manifest key contributes to `totalWeight`. -/
def pkgWeight (n : String) : Nat :=
  match catalogLookup n with
  | some e => e.weight
  | none => 0

lemma anyKey_iff {β : Type} (m : List (String × β)) (k : String) :
    m.any (fun p => p.1 = k) = true ↔ k ∈ m.map Prod.fst := by
  simp [List.any_eq_true, List.mem_map]

lemma objInsert_keys (m : List (String × Json)) (kv : String × Json) :
    (objInsert m kv).map Prod.fst =
      if kv.1 ∈ m.map Prod.fst then m.map Prod.fst
      else m.map Prod.fst ++ [kv.1] := by
  unfold objInsert
  by_cases h : kv.1 ∈ m.map Prod.fst
  · rw [if_pos ((anyKey_iff m kv.1).mpr h), if_pos h, List.map_map]
    refine List.map_congr_left (fun p _ => ?_)
    by_cases hc : p.1 = kv.1 <;> simp [hc]
  · rw [if_neg (fun hc => h ((anyKey_iff m kv.1).mp hc)), if_neg h]
    simp

lemma bumpCategory_keys (cats : List (String × Nat)) (c : String) (w : Nat) :
    (bumpCategory cats c w).map Prod.fst =
      if c ∈ cats.map Prod.fst then cats.map Prod.fst
      else cats.map Prod.fst ++ [c] := by
  unfold bumpCategory
  by_cases h : c ∈ cats.map Prod.fst
  · rw [if_pos ((anyKey_iff cats c).mpr h), if_pos h, List.map_map]
    refine List.map_congr_left (fun p _ => ?_)
    by_cases hc : p.1 = c <;> simp [hc]
  · rw [if_neg (fun hc => h ((anyKey_iff cats c).mp hc)), if_neg h]
    simp

lemma bumpCategory_keys_nodup {cats : List (String × Nat)} {c : String}
    {w : Nat} (h : (cats.map Prod.fst).Nodup) :
    ((bumpCategory cats c w).map Prod.fst).Nodup := by
  rw [bumpCategory_keys]
  by_cases hc : c ∈ cats.map Prod.fst
  · rwa [if_pos hc]
  · rw [if_neg hc]
    refine List.nodup_append.mpr ⟨h, List.nodup_singleton c, ?_⟩
    intro x hx hxc
    rw [List.mem_singleton] at hxc
    exact hc (hxc ▸ hx)

lemma sum_map_update (cats : List (String × Nat)) (c : String) (w : Nat)
    (h : (cats.map Prod.fst).Nodup) (hc : c ∈ cats.map Prod.fst) :
    ((cats.map (fun p => if p.1 = c then (p.1, p.2 + w) else p)).map
        Prod.snd).sum = (cats.map Prod.snd).sum + w := by
  induction cats with
  | nil => simp at hc
  | cons q rest ih =>
    have hnd : q.1 ∉ rest.map Prod.fst ∧ (rest.map Prod.fst).Nodup := by
      rw [List.map_cons, List.nodup_cons] at h
      exact h
    by_cases hq : q.1 = c
    · have hrest : rest.map (fun p => if p.1 = c then (p.1, p.2 + w) else p)
          = rest := by
        have hnotc : ∀ p ∈ rest, p.1 ≠ c := by
          intro p hp hpc
          exact hnd.1 (List.mem_map.mpr ⟨p, hp, hpc.trans hq.symm⟩)
        calc rest.map (fun p => if p.1 = c then (p.1, p.2 + w) else p)
            = rest.map id := List.map_congr_left
              (fun p hp => by simp [hnotc p hp])
          _ = rest := List.map_id rest
      simp only [List.map_cons, List.sum_cons, hrest, if_pos hq]
      omega
    · have hc' : c ∈ rest.map Prod.fst := by
        rcases List.mem_map.mp hc with ⟨p, hp, hpc⟩
        rcases List.mem_cons.mp hp with rfl | hp'
        · exact absurd hpc hq
        · exact List.mem_map.mpr ⟨p, hp', hpc⟩
      have := ih hnd.2 hc'
      simp only [List.map_cons, List.sum_cons, if_neg hq, this]
      omega

lemma bumpCategory_sum (cats : List (String × Nat)) (c : String) (w : Nat)
    (h : (cats.map Prod.fst).Nodup) :
    ((bumpCategory cats c w).map Prod.snd).sum
      = (cats.map Prod.snd).sum + w := by
  unfold bumpCategory
  by_cases hc : c ∈ cats.map Prod.fst
  · rw [if_pos ((anyKey_iff cats c).mpr hc)]
    exact sum_map_update cats c w h hc
  · rw [if_neg (fun hx => hc ((anyKey_iff cats c).mp hx))]
    simp

/-! ### Characterizations of the scan loop -/

lemma scan_foldl_totalWeight (keys : List String) (st : ScanState) :
    (keys.foldl scanStep st).totalWeight
      = st.totalWeight + (keys.map pkgWeight).sum := by
  induction keys generalizing st with
  | nil => simp
  | cons k ks ih =>
    rw [List.foldl_cons, ih]
    unfold scanStep pkgWeight
    cases h : catalogLookup k
    · simp [h]
    · simp [h]
      omega

lemma scan_foldl_heavy (keys : List String) (st : ScanState) :
    (keys.foldl scanStep st).heavyPackages
      = st.heavyPackages ++ keys.filter (fun n => (catalogLookup n).isSome) := by
  induction keys generalizing st with
  | nil => simp
  | cons k ks ih =>
    rw [List.foldl_cons, ih]
    unfold scanStep
    cases h : catalogLookup k <;> simp [h, List.filter_cons]

lemma scan_foldl_categories (keys : List String) (st : ScanState)
    (h1 : (st.categories.map Prod.fst).Nodup)
    (h2 : st.totalWeight = (st.categories.map Prod.snd).sum) :
    ((keys.foldl scanStep st).categories.map Prod.fst).Nodup ∧
      (keys.foldl scanStep st).totalWeight
        = ((keys.foldl scanStep st).categories.map Prod.snd).sum := by
  induction keys generalizing st with
  | nil => exact ⟨h1, h2⟩
  | cons k ks ih =>
    rw [List.foldl_cons]
    unfold scanStep
    cases h : catalogLookup k with
    | none => exact ih st h1 h2
    | some e =>
      refine ih _ (bumpCategory_keys_nodup h1) ?_
      simp only [bumpCategory_sum st.categories e.category e.weight h1]
      omega

lemma execSuccess_heavy (pkg : Json) :
    (execSuccess pkg).heavyPackages
      = ((allDepsOf pkg).map Prod.fst).filter
          (fun n => (catalogLookup n).isSome) := by
  show (scan ((allDepsOf pkg).map Prod.fst)).heavyPackages = _
  rw [scan, scan_foldl_heavy]
  rfl

lemma execSuccess_totalWeight (pkg : Json) :
    (execSuccess pkg).totalWeight
      = (((allDepsOf pkg).map Prod.fst).map pkgWeight).sum := by
  show (scan ((allDepsOf pkg).map Prod.fst)).totalWeight = _
  rw [scan, scan_foldl_totalWeight]
  simp

lemma execSuccess_riskLevel (pkg : Json) :
    (execSuccess pkg).riskLevel = classifyRisk (execSuccess pkg).totalWeight :=
  rfl

lemma execSuccess_flags (pkg : Json) :
    (execSuccess pkg).analysis.hasBrowserAutomation
        = hasFlag (execSuccess pkg).heavyPackages browserAutomationSet ∧
      (execSuccess pkg).analysis.hasAI
        = hasFlag (execSuccess pkg).heavyPackages hasAISet ∧
      (execSuccess pkg).analysis.hasImageProcessing
        = hasFlag (execSuccess pkg).heavyPackages imageProcessingSet ∧
      (execSuccess pkg).analysis.hasVideoProcessing
        = hasFlag (execSuccess pkg).heavyPackages videoProcessingSet ∧
      (execSuccess pkg).analysis.hasDatabase
        = hasFlag (execSuccess pkg).heavyPackages databaseSet :=
  ⟨rfl, rfl, rfl, rfl, rfl⟩

lemma hasFlag_iff (heavy nameSet : List String) :
    hasFlag heavy nameSet = true ↔ ∃ n, n ∈ nameSet ∧ n ∈ heavy := by
  unfold hasFlag
  simp [List.any_eq_true]
  exact ⟨fun ⟨n, hh, hs⟩ => ⟨n, hs, hh⟩, fun ⟨n, hs, hh⟩ => ⟨n, hh, hs⟩⟩

/-! ### Spread-merge lemmas -/

lemma spreadMerge_cons (a : List (String × Json)) (kv : String × Json)
    (b : List (String × Json)) :
    spreadMerge a (kv :: b) = spreadMerge (objInsert a kv) b := rfl

lemma spreadMerge_keys (a b : List (String × Json))
    (hb : (b.map Prod.fst).Nodup) :
    (spreadMerge a b).map Prod.fst =
      a.map Prod.fst
        ++ (b.map Prod.fst).filter (fun x => decide (x ∉ a.map Prod.fst)) := by
  induction b generalizing a with
  | nil => simp [spreadMerge]
  | cons kv b' ih =>
    have hb2 : kv.1 ∉ b'.map Prod.fst ∧ (b'.map Prod.fst).Nodup := by
      rw [List.map_cons, List.nodup_cons] at hb
      exact hb
    rw [spreadMerge_cons, ih _ hb2.2, objInsert_keys]
    by_cases h : kv.1 ∈ a.map Prod.fst
    · rw [if_pos h]
      simp [List.filter_cons, h]
    · rw [if_neg h]
      have hcong : (b'.map Prod.fst).filter
            (fun x => decide (x ∉ a.map Prod.fst ++ [kv.1]))
          = (b'.map Prod.fst).filter (fun x => decide (x ∉ a.map Prod.fst)) := by
        refine List.filter_congr (fun x hx => ?_)
        have hxk : x ≠ kv.1 := fun hxe => hb2.1 (hxe ▸ hx)
        simp [List.mem_append, hxk]
      rw [hcong]
      simp [List.filter_cons, h, List.append_assoc]

lemma spreadMerge_keys_nodup {a b : List (String × Json)}
    (ha : (a.map Prod.fst).Nodup) (hb : (b.map Prod.fst).Nodup) :
    ((spreadMerge a b).map Prod.fst).Nodup := by
  rw [spreadMerge_keys a b hb]
  refine List.nodup_append.mpr ⟨ha, hb.filter _, ?_⟩
  intro x hxa hxf
  have hx := (List.mem_filter.mp hxf).2
  rw [decide_eq_true_eq] at hx
  exact hx hxa

lemma find?_map_update (m : List (String × Json)) (kv : String × Json)
    (h : kv.1 ∈ m.map Prod.fst) :
    (m.map (fun p => if p.1 = kv.1 then kv else p)).find?
        (fun p => p.1 = kv.1) = some kv := by
  induction m with
  | nil => simp at h
  | cons q m' ih =>
    simp only [List.map_cons]
    by_cases hq : q.1 = kv.1
    · rw [if_pos hq]
      exact List.find?_cons_of_pos _ (by simp)
    · rw [if_neg hq]
      rw [List.find?_cons_of_neg _ (by simp [hq])]
      refine ih ?_
      rcases List.mem_map.mp h with ⟨p, hp, hpk⟩
      rcases List.mem_cons.mp hp with rfl | hp'
      · exact absurd hpk hq
      · exact List.mem_map.mpr ⟨p, hp', hpk⟩

lemma find?_map_update_other (m : List (String × Json)) (kv : String × Json)
    (k : String) (hk : k ≠ kv.1) :
    (m.map (fun p => if p.1 = kv.1 then kv else p)).find?
        (fun p => p.1 = k) = m.find? (fun p => p.1 = k) := by
  induction m with
  | nil => rfl
  | cons q m' ih =>
    simp only [List.map_cons]
    by_cases hq : q.1 = k
    · have hqkv : ¬ q.1 = kv.1 := fun hx => hk (hq ▸ hx ▸ rfl)
      rw [if_neg hqkv, List.find?_cons_of_pos _ (by simp [hq]),
        List.find?_cons_of_pos _ (by simp [hq])]
    · by_cases hqkv : q.1 = kv.1
      · rw [if_pos hqkv,
          List.find?_cons_of_neg _ (by
            simp only [decide_eq_true_eq]
            exact fun hx => hk hx.symm),
          List.find?_cons_of_neg _ (by simp [hq]), ih]
      · rw [if_neg hqkv, List.find?_cons_of_neg _ (by simp [hq]),
          List.find?_cons_of_neg _ (by simp [hq]), ih]

lemma objLookup_objInsert_self (m : List (String × Json))
    (kv : String × Json) :
    objLookup (objInsert m kv) kv.1 = some kv.2 := by
  unfold objInsert objLookup
  by_cases h : kv.1 ∈ m.map Prod.fst
  · rw [if_pos ((anyKey_iff m kv.1).mpr h), find?_map_update m kv h]
    rfl
  · rw [if_neg (fun hx => h ((anyKey_iff m kv.1).mp hx)), List.find?_append]
    have hnone : m.find? (fun p => p.1 = kv.1) = none := by
      rw [List.find?_eq_none]
      intro p hp hpk
      exact h (List.mem_map.mpr ⟨p, hp, by simpa using hpk⟩)
    rw [hnone]
    simp

lemma objLookup_objInsert_other (m : List (String × Json))
    (kv : String × Json) (k : String) (hk : k ≠ kv.1) :
    objLookup (objInsert m kv) k = objLookup m k := by
  unfold objInsert objLookup
  by_cases h : m.any (fun p => p.1 = kv.1)
  · rw [if_pos h, find?_map_update_other m kv k hk]
  · rw [if_neg h, List.find?_append]
    have hone : List.find? (fun p => p.1 = k) [kv] = none := by
      rw [List.find?_eq_none]
      intro p hp hpk
      rw [List.mem_singleton] at hp
      have hkk : p.1 = k := by simpa using hpk
      rw [hp] at hkk
      exact hk hkk.symm
    rw [hone, Option.or_none]

lemma spreadMerge_lookup_not_mem (a b : List (String × Json)) (k : String)
    (hk : k ∉ b.map Prod.fst) :
    objLookup (spreadMerge a b) k = objLookup a k := by
  induction b generalizing a with
  | nil => rfl
  | cons kv b' ih =>
    rw [spreadMerge_cons]
    have hk1 : k ≠ kv.1 := fun h => hk (by simp [h])
    have hk' : k ∉ b'.map Prod.fst := fun h => hk (by simp [h])
    rw [ih _ hk', objLookup_objInsert_other _ _ _ hk1]

lemma spreadMerge_lookup_mem (a b : List (String × Json)) (k : String)
    (hb : (b.map Prod.fst).Nodup) (hk : k ∈ b.map Prod.fst) :
    objLookup (spreadMerge a b) k = objLookup b k := by
  induction b generalizing a with
  | nil => simp at hk
  | cons kv b' ih =>
    rw [spreadMerge_cons]
    have hb2 : kv.1 ∉ b'.map Prod.fst ∧ (b'.map Prod.fst).Nodup := by
      rw [List.map_cons, List.nodup_cons] at hb
      exact hb
    by_cases hq : k = kv.1
    · subst hq
      rw [spreadMerge_lookup_not_mem _ _ _ hb2.1, objLookup_objInsert_self]
      unfold objLookup
      rw [List.find?_cons_of_pos _ (by simp)]
      rfl
    · have hk' : k ∈ b'.map Prod.fst := by
        rw [List.map_cons, List.mem_cons] at hk
        exact hk.resolve_left hq
      rw [ih _ hb2.2 hk']
      unfold objLookup
      rw [List.find?_cons_of_neg _ (by simp [Ne.symm (Ne.intro hq)])]

/-! ### Bridge lemmas -/

lemma depsField_mkManifest_deps (a b : List (String × Json)) :
    depsField (mkManifest a b) "dependencies" = a := rfl

lemma depsField_mkManifest_dev (a b : List (String × Json)) :
    depsField (mkManifest a b) "devDependencies" = b := rfl

lemma allDepsOf_mkManifest (a b : List (String × Json)) :
    allDepsOf (mkManifest a b) = spreadMerge a b := rfl

lemma execSuccess_congr {p q : Json} (h : allDepsOf p = allDepsOf q) :
    execSuccess p = execSuccess q := by
  unfold execSuccess
  rw [h]

lemma execSuccess_via_mkManifest (pkg : Json) :
    execSuccess pkg = execSuccess (mkManifest (depsField pkg "dependencies")
      (depsField pkg "devDependencies")) :=
  execSuccess_congr rfl

lemma execute_some (pkg : Json) :
    analyzeDependenciesExecute (some pkg) = execSuccess pkg := by
  cases pkg
  case null => rfl
  all_goals rfl

lemma classifyRisk_ne_LOW {w : Nat} (h : 6 ≤ w) :
    classifyRisk w ≠ RiskLevel.LOW := by
  unfold classifyRisk
  rw [if_neg (by omega)]
  split
  · simp
  · split <;> simp

lemma execSuccess_cats_sum (pkg : Json) :
    (execSuccess pkg).totalWeight
      = ((execSuccess pkg).categories.map Prod.snd).sum :=
  (scan_foldl_categories ((allDepsOf pkg).map Prod.fst) ⟨0, [], []⟩
    (by simp) (by simp)).2

lemma execSuccess_heavy_nodup (pkg : Json) (h : wellFormedManifest pkg) :
    (execSuccess pkg).heavyPackages.Nodup := by
  rw [execSuccess_heavy]
  exact (spreadMerge_keys_nodup h.1 h.2).filter _

lemma execSuccess_extend (d dd : List (String × Json)) (k : String) (v : Json)
    (hddn : (dd.map Prod.fst).Nodup)
    (hdd : k ∉ dd.map Prod.fst) :
    (execSuccess (mkManifest d dd)).totalWeight
        ≤ (execSuccess (mkManifest (d ++ [(k, v)]) dd)).totalWeight ∧
      ∀ n, n ∈ (execSuccess (mkManifest d dd)).heavyPackages →
        n ∈ (execSuccess (mkManifest (d ++ [(k, v)]) dd)).heavyPackages := by
  have hKd := spreadMerge_keys d dd hddn
  have hF : ((d ++ [(k, v)]).map Prod.fst) = d.map Prod.fst ++ [k] := by simp
  have hKe : (spreadMerge (d ++ [(k, v)]) dd).map Prod.fst
      = (d.map Prod.fst ++ [k])
          ++ (dd.map Prod.fst).filter
              (fun x => decide (x ∉ d.map Prod.fst)) := by
    rw [spreadMerge_keys _ dd hddn, hF]
    congr 1
    refine List.filter_congr (fun x hx => ?_)
    have hxk : x ≠ k := fun hxe => hdd (hxe ▸ hx)
    simp [List.mem_append, hxk]
  constructor
  · rw [execSuccess_totalWeight, execSuccess_totalWeight,
      allDepsOf_mkManifest, allDepsOf_mkManifest, hKd, hKe]
    simp only [List.map_append, List.sum_append, List.map_cons, List.map_nil,
      List.sum_cons, List.sum_nil]
    omega
  · intro n hn
    rw [execSuccess_heavy, allDepsOf_mkManifest, hKd] at hn
    rw [execSuccess_heavy, allDepsOf_mkManifest, hKe]
    rw [List.filter_append] at hn
    rw [List.filter_append, List.filter_append]
    rcases List.mem_append.mp hn with h | h
    · exact List.mem_append.mpr (Or.inl (List.mem_append.mpr (Or.inl h)))
    · exact List.mem_append.mpr (Or.inr h)

/-! ### Claim theorems -/

/-- Claim C1: for every manifest text that fails to deserialize as JSON
(modelled by the parse outcome `none`, covering the empty string, truncated
text and non-structured text), the scorer does not raise and returns exactly
the zero/default report promised by the spec: `heavyPackages=[]`,
`totalWeight=0`, `categories=` the empty mapping, `riskLevel=LOW`, all five
capability flags false, `totalDependencies=0`. -/
theorem C1_parse_failure_default_report :
    analyzeDependenciesExecute none = zeroReportSpec := rfl

/-- Claim C2: the returned `riskLevel` is a pure function of `totalWeight`
(for every parse outcome), and that function uses the fixed thresholds
0–5 LOW, 6–15 MEDIUM, 16–30 HIGH, 31+ CRITICAL. -/
theorem C2_riskLevel_thresholds :
    (∀ p : Option Json,
        (analyzeDependenciesExecute p).riskLevel
          = classifyRisk (analyzeDependenciesExecute p).totalWeight) ∧
      (∀ w : Nat, w ≤ 5 → classifyRisk w = RiskLevel.LOW) ∧
      (∀ w : Nat, 6 ≤ w → w ≤ 15 → classifyRisk w = RiskLevel.MEDIUM) ∧
      (∀ w : Nat, 16 ≤ w → w ≤ 30 → classifyRisk w = RiskLevel.HIGH) ∧
      (∀ w : Nat, 31 ≤ w → classifyRisk w = RiskLevel.CRITICAL) := by
  refine ⟨?_, ?_, ?_, ?_, ?_⟩
  · intro p
    rcases p with _ | j
    · rfl
    · rw [execute_some]
      exact execSuccess_riskLevel j
  · intro w h
    unfold classifyRisk
    rw [if_pos h]
  · intro w h1 h2
    unfold classifyRisk
    rw [if_neg (by omega), if_pos h2]
  · intro w h1 h2
    unfold classifyRisk
    rw [if_neg (by omega), if_neg (by omega), if_pos h2]
  · intro w h
    unfold classifyRisk
    rw [if_neg (by omega), if_neg (by omega), if_neg (by omega)]

/-- Witness for C2 at the boundary weights named by the claim. -/
theorem C2_riskLevel_thresholds_witness :
    classifyRisk 5 = RiskLevel.LOW ∧ classifyRisk 6 = RiskLevel.MEDIUM ∧
      classifyRisk 15 = RiskLevel.MEDIUM ∧ classifyRisk 16 = RiskLevel.HIGH ∧
      classifyRisk 30 = RiskLevel.HIGH ∧
      classifyRisk 31 = RiskLevel.CRITICAL :=
  ⟨C2_riskLevel_thresholds.2.1 5 (by decide),
    C2_riskLevel_thresholds.2.2.1 6 (by decide) (by decide),
    C2_riskLevel_thresholds.2.2.1 15 (by decide) (by decide),
    C2_riskLevel_thresholds.2.2.2.1 16 (by decide) (by decide),
    C2_riskLevel_thresholds.2.2.2.1 30 (by decide) (by decide),
    C2_riskLevel_thresholds.2.2.2.2 31 (by decide)⟩

/-- Claim C3 is false on the code: in the manifest whose dependencies map
"jest" to "runtime" and whose devDependencies map "jest" to "dev", the merged
mapping holds the devDependencies value — `\x7b...deps, ...devDeps\x7d`
lets the set spread later win, not the runtime set. -/
theorem C3_counterexample_runtime_does_not_win :
    objLookup (allDepsOf (mkManifest [("jest", Json.str "runtime")]
        [("jest", Json.str "dev")])) "jest" = some (Json.str "dev") ∧
      Json.str "dev" ≠ Json.str "runtime" := by
  refine ⟨rfl, fun h => ?_⟩
  injection h with h'
  exact absurd h' (by decide)

/-- Claim C3 (amended): for every well-formed manifest in which a package
name appears in both the dependencies and the devDependencies objects, the
merged mapping maps that name to the value from the development dependencies
set (the later spread wins due to merge order). -/
theorem C3_amended_dev_value_wins (pkg : Json) (k : String)
    (hwf : wellFormedManifest pkg)
    (hkd : k ∈ (depsField pkg "dependencies").map Prod.fst)
    (hkdd : k ∈ (depsField pkg "devDependencies").map Prod.fst) :
    objLookup (allDepsOf pkg) k
      = objLookup (depsField pkg "devDependencies") k :=
  spreadMerge_lookup_mem _ _ _ hwf.2 hkdd

/-- Witness for the amended C3 on the counterexample manifest. -/
theorem C3_amended_dev_value_wins_witness :
    wellFormedManifest (mkManifest [("jest", Json.str "runtime")]
        [("jest", Json.str "dev")]) ∧
      "jest" ∈ (depsField (mkManifest [("jest", Json.str "runtime")]
        [("jest", Json.str "dev")]) "dependencies").map Prod.fst ∧
      "jest" ∈ (depsField (mkManifest [("jest", Json.str "runtime")]
        [("jest", Json.str "dev")]) "devDependencies").map Prod.fst ∧
      objLookup (allDepsOf (mkManifest [("jest", Json.str "runtime")]
          [("jest", Json.str "dev")])) "jest"
        = objLookup (depsField (mkManifest [("jest", Json.str "runtime")]
            [("jest", Json.str "dev")]) "devDependencies") "jest" :=
  ⟨by decide, by decide, by decide,
    C3_amended_dev_value_wins _ _ (by decide) (by decide) (by decide)⟩

/-- Claim C4 is false on the code: the `hasAI` name-set is not a subset of
the AI/ML category's catalog names — "opencv" belongs to the flag's name-set
while its catalog category is "Computer Vision" — so the flag's name-set is
not narrower than the AI/ML category. -/
theorem C4_counterexample_hasAISet_not_subset :
    "opencv" ∈ hasAISet ∧ "opencv" ∉ aimlCategoryNames ∧
      catalogLookup "opencv" = some ⟨9, "Computer Vision"⟩ :=
  ⟨by decide, by decide, rfl⟩

/-- Claim C4 (amended): the fixed name-set of the `hasAI` flag is wider than
the AI/ML category, not narrower: it is exactly the catalog names whose
category is AI/ML followed by those whose category is Computer Vision, so it
still must be maintained independently of AI/ML category membership. -/
theorem C4_amended_hasAISet_superset :
    hasAISet = aimlCategoryNames ++ cvCategoryNames := by decide

/-- Claim C5: for every parse outcome (in particular every well-formed
manifest), the returned `totalWeight` equals the sum of the values of the
returned `categories` mapping. -/
theorem C5_totalWeight_eq_sum_categories (p : Option Json) :
    (analyzeDependenciesExecute p).totalWeight
      = (((analyzeDependenciesExecute p).categories).map Prod.snd).sum := by
  rcases p with _ | j
  · rfl
  · rw [execute_some]
    exact execSuccess_cats_sum j

/-- Claim C6: for every parse outcome, each of the five capability flags of
the returned analysis record is true iff at least one package name from that
flag's fixed name-set is present in the returned `heavyPackages` sequence. -/
theorem C6_flags_iff_name_set_hit (p : Option Json) :
    ((analyzeDependenciesExecute p).analysis.hasBrowserAutomation = true ↔
        ∃ n, n ∈ browserAutomationSet ∧
          n ∈ (analyzeDependenciesExecute p).heavyPackages) ∧
      ((analyzeDependenciesExecute p).analysis.hasAI = true ↔
        ∃ n, n ∈ hasAISet ∧
          n ∈ (analyzeDependenciesExecute p).heavyPackages) ∧
      ((analyzeDependenciesExecute p).analysis.hasImageProcessing = true ↔
        ∃ n, n ∈ imageProcessingSet ∧
          n ∈ (analyzeDependenciesExecute p).heavyPackages) ∧
      ((analyzeDependenciesExecute p).analysis.hasVideoProcessing = true ↔
        ∃ n, n ∈ videoProcessingSet ∧
          n ∈ (analyzeDependenciesExecute p).heavyPackages) ∧
      ((analyzeDependenciesExecute p).analysis.hasDatabase = true ↔
        ∃ n, n ∈ databaseSet ∧
          n ∈ (analyzeDependenciesExecute p).heavyPackages) := by
  rcases p with _ | j
  · exact ⟨hasFlag_iff (analyzeDependenciesExecute none).heavyPackages
        browserAutomationSet,
      hasFlag_iff (analyzeDependenciesExecute none).heavyPackages hasAISet,
      hasFlag_iff (analyzeDependenciesExecute none).heavyPackages
        imageProcessingSet,
      hasFlag_iff (analyzeDependenciesExecute none).heavyPackages
        videoProcessingSet,
      hasFlag_iff (analyzeDependenciesExecute none).heavyPackages
        databaseSet⟩
  · rw [execute_some]
    exact ⟨hasFlag_iff (execSuccess j).heavyPackages browserAutomationSet,
      hasFlag_iff (execSuccess j).heavyPackages hasAISet,
      hasFlag_iff (execSuccess j).heavyPackages imageProcessingSet,
      hasFlag_iff (execSuccess j).heavyPackages videoProcessingSet,
      hasFlag_iff (execSuccess j).heavyPackages databaseSet⟩

/-- Claim C7: for every well-formed manifest, appending one catalog-matching
dependency key not already present never decreases `totalWeight`, and every
capability flag true on the original manifest stays true on the extended
manifest. -/
theorem C7_extension_monotone (pkg : Json) (k : String) (v : Json)
    (hwf : wellFormedManifest pkg)
    (hcat : (catalogLookup k).isSome = true)
    (hd : k ∉ (depsField pkg "dependencies").map Prod.fst)
    (hdd : k ∉ (depsField pkg "devDependencies").map Prod.fst) :
    (analyzeDependenciesExecute (some pkg)).totalWeight
        ≤ (analyzeDependenciesExecute (some (mkManifest
            ((depsField pkg "dependencies") ++ [(k, v)])
            (depsField pkg "devDependencies")))).totalWeight ∧
      ((analyzeDependenciesExecute (some pkg)).analysis.hasBrowserAutomation
          = true →
        (analyzeDependenciesExecute (some (mkManifest
            ((depsField pkg "dependencies") ++ [(k, v)])
            (depsField pkg "devDependencies")))).analysis.hasBrowserAutomation
          = true) ∧
      ((analyzeDependenciesExecute (some pkg)).analysis.hasAI = true →
        (analyzeDependenciesExecute (some (mkManifest
            ((depsField pkg "dependencies") ++ [(k, v)])
            (depsField pkg "devDependencies")))).analysis.hasAI = true) ∧
      ((analyzeDependenciesExecute (some pkg)).analysis.hasImageProcessing
          = true →
        (analyzeDependenciesExecute (some (mkManifest
            ((depsField pkg "dependencies") ++ [(k, v)])
            (depsField pkg "devDependencies")))).analysis.hasImageProcessing
          = true) ∧
      ((analyzeDependenciesExecute (some pkg)).analysis.hasVideoProcessing
          = true →
        (analyzeDependenciesExecute (some (mkManifest
            ((depsField pkg "dependencies") ++ [(k, v)])
            (depsField pkg "devDependencies")))).analysis.hasVideoProcessing
          = true) ∧
      ((analyzeDependenciesExecute (some pkg)).analysis.hasDatabase = true →
        (analyzeDependenciesExecute (some (mkManifest
            ((depsField pkg "dependencies") ++ [(k, v)])
            (depsField pkg "devDependencies")))).analysis.hasDatabase
          = true) := by
  rw [execute_some, execute_some, execSuccess_via_mkManifest pkg]
  have hmain := execSuccess_extend (depsField pkg "dependencies")
    (depsField pkg "devDependencies") k v hwf.2 hdd
  refine ⟨hmain.1, ?_, ?_, ?_, ?_, ?_⟩
  all_goals
    intro hs
    rcases (hasFlag_iff _ _).mp hs with ⟨n, hn1, hn2⟩
    exact (hasFlag_iff _ _).mpr ⟨n, hn1, hmain.2 n hn2⟩

/-- Witness for C7: extending the manifest with runtime dependency
tensorflow by the catalog key sharp. -/
theorem C7_extension_monotone_witness :
    wellFormedManifest (mkManifest [("tensorflow", Json.str "^1")] []) ∧
      (catalogLookup "sharp").isSome = true ∧
      "sharp" ∉ (depsField (mkManifest [("tensorflow", Json.str "^1")] [])
        "dependencies").map Prod.fst ∧
      "sharp" ∉ (depsField (mkManifest [("tensorflow", Json.str "^1")] [])
        "devDependencies").map Prod.fst ∧
      (analyzeDependenciesExecute
          (some (mkManifest [("tensorflow", Json.str "^1")] []))).totalWeight
        ≤ (analyzeDependenciesExecute (some (mkManifest
            ((depsField (mkManifest [("tensorflow", Json.str "^1")] [])
              "dependencies") ++ [("sharp", Json.str "^1")])
            (depsField (mkManifest [("tensorflow", Json.str "^1")] [])
              "devDependencies")))).totalWeight ∧
      ((analyzeDependenciesExecute
          (some (mkManifest [("tensorflow", Json.str "^1")] []))).analysis.hasAI
          = true →
        (analyzeDependenciesExecute (some (mkManifest
            ((depsField (mkManifest [("tensorflow", Json.str "^1")] [])
              "dependencies") ++ [("sharp", Json.str "^1")])
            (depsField (mkManifest [("tensorflow", Json.str "^1")] [])
              "devDependencies")))).analysis.hasAI = true) :=
  ⟨by decide, by decide, by decide, by decide,
    (C7_extension_monotone (mkManifest [("tensorflow", Json.str "^1")] [])
      "sharp" (Json.str "^1") (by decide) (by decide) (by decide)
      (by decide)).1,
    (C7_extension_monotone (mkManifest [("tensorflow", Json.str "^1")] [])
      "sharp" (Json.str "^1") (by decide) (by decide) (by decide)
      (by decide)).2.2.1⟩

/-- Claim C8: the spec's worked scenario — dependencies tensorflow and
sharp, devDependencies jest — produces exactly the listed heavyPackages in
that order, totalWeight 20, the listed categories, riskLevel HIGH, and hasAI
and hasImageProcessing true. -/
theorem C8_worked_scenario :
    (analyzeDependenciesExecute (some (mkManifest
        [("tensorflow", Json.str "^1"), ("sharp", Json.str "^1")]
        [("jest", Json.str "^1")]))).heavyPackages
        = ["tensorflow", "sharp", "jest"] ∧
      (analyzeDependenciesExecute (some (mkManifest
        [("tensorflow", Json.str "^1"), ("sharp", Json.str "^1")]
        [("jest", Json.str "^1")]))).totalWeight = 20 ∧
      (analyzeDependenciesExecute (some (mkManifest
        [("tensorflow", Json.str "^1"), ("sharp", Json.str "^1")]
        [("jest", Json.str "^1")]))).categories
        = [("AI/ML", 10), ("Image Processing", 7), ("Testing", 3)] ∧
      (analyzeDependenciesExecute (some (mkManifest
        [("tensorflow", Json.str "^1"), ("sharp", Json.str "^1")]
        [("jest", Json.str "^1")]))).riskLevel = RiskLevel.HIGH ∧
      (analyzeDependenciesExecute (some (mkManifest
        [("tensorflow", Json.str "^1"), ("sharp", Json.str "^1")]
        [("jest", Json.str "^1")]))).analysis.hasAI = true ∧
      (analyzeDependenciesExecute (some (mkManifest
        [("tensorflow", Json.str "^1"), ("sharp", Json.str "^1")]
        [("jest", Json.str "^1")]))).analysis.hasImageProcessing = true := by
  refine ⟨?_, ?_, ?_, ?_, ?_, ?_⟩ <;> decide

/-- Claim C9: for every well-formed manifest, the returned `heavyPackages`
sequence contains no duplicate names: each merged key is scanned once. -/
theorem C9_heavyPackages_nodup (pkg : Json) (hwf : wellFormedManifest pkg) :
    (analyzeDependenciesExecute (some pkg)).heavyPackages.Nodup := by
  rw [execute_some]
  exact execSuccess_heavy_nodup pkg hwf

/-- Witness for C9 on a concrete manifest hitting both dependency sets. -/
theorem C9_heavyPackages_nodup_witness :
    wellFormedManifest (mkManifest [("tensorflow", Json.str "^1")]
        [("jest", Json.str "^1")]) ∧
      (analyzeDependenciesExecute (some (mkManifest
        [("tensorflow", Json.str "^1")]
        [("jest", Json.str "^1")]))).heavyPackages.Nodup :=
  ⟨by decide,
    C9_heavyPackages_nodup (mkManifest [("tensorflow", Json.str "^1")]
      [("jest", Json.str "^1")]) (by decide)⟩

/-- Claim C10: whenever the returned hasBrowserAutomation flag is true, the
returned riskLevel is not LOW — every browser-automation catalog weight is
at least 7, which already exceeds the LOW upper bound 5. -/
theorem C10_browser_automation_not_LOW (p : Option Json)
    (h : (analyzeDependenciesExecute p).analysis.hasBrowserAutomation
      = true) :
    (analyzeDependenciesExecute p).riskLevel ≠ RiskLevel.LOW := by
  rcases p with _ | j
  · exact absurd h (by decide)
  · rw [execute_some] at h ⊢
    have h2 : hasFlag (execSuccess j).heavyPackages browserAutomationSet
        = true := h
    rcases (hasFlag_iff (execSuccess j).heavyPackages
      browserAutomationSet).mp h2 with ⟨n, hns, hnh⟩
    rw [execSuccess_heavy] at hnh
    have hkeys := (List.mem_filter.mp hnh).1
    have hw : 7 ≤ pkgWeight n := by
      simp only [browserAutomationSet, List.mem_cons,
        List.not_mem_nil, or_false] at hns
      rcases hns with rfl | rfl | rfl <;> decide
    have hsum : pkgWeight n ≤ (execSuccess j).totalWeight := by
      rw [execSuccess_totalWeight]
      exact List.single_le_sum (fun x _ => Nat.zero_le x) _
        (List.mem_map.mpr ⟨n, hkeys, rfl⟩)
    rw [execSuccess_riskLevel]
    exact classifyRisk_ne_LOW (by omega)

/-- Witness for C10 on a manifest containing puppeteer. -/
theorem C10_browser_automation_not_LOW_witness :
    (analyzeDependenciesExecute (some (mkManifest
        [("puppeteer", Json.str "^1.0")] []))).analysis.hasBrowserAutomation
        = true ∧
      (analyzeDependenciesExecute (some (mkManifest
        [("puppeteer", Json.str "^1.0")] []))).riskLevel ≠ RiskLevel.LOW :=
  ⟨by decide,
    C10_browser_automation_not_LOW
      (some (mkManifest [("puppeteer", Json.str "^1.0")] [])) (by decide)⟩
